import Mathlib

/-!
Shallow embedding of the analysis core of the `music-streaming-analytics`
repository (files `src/ab_framework.py`, `src/funnel_analysis.py`,
`src/feature_engineering.py`), together with theorems settling the
specification claims about it.

Conventions of the embedding:
* pandas DataFrames become Lean lists of records (structures);
* Python `float` arithmetic is modelled exactly over `ℚ`; division by zero
  in `ℚ` yields 0 (the Python code either guards these divisions or the
  claim's hypotheses exclude them, except where noted in a comment);
* external library calls whose values the source merely consumes
  (`scipy.stats.norm.ppf`, `scipy.stats.ttest_ind`, `numpy.sqrt`,
  `numpy.random.permutation`) are passed in as explicit arguments,
  constrained only by the properties the relevant claim grants them
  (e.g. `np.sqrt` maps nonnegatives to nonnegatives, the seeded
  permutation is a permutation of its input);
* identifiers ending in `ratio` in the source are rendered with the suffix
  `frac` here.
-/

/-! ### A/B testing framework (`src/ab_framework.py`) -/

/-- Embeds `ABTestFramework.calculate_sample_size` (src/ab_framework.py,
lines 55-68).  `zAlpha` and `zBeta` stand for the values
`stats.norm.ppf(1 - significance_level / 2)` and `stats.norm.ppf(power)`
computed by scipy; the rest of the body is translated literally.
`int(np.ceil(n))` is `Int.ceil` (the float `np.ceil(n)` is integral, so the
`int` truncation is exact). -/
def calculate_sample_size (zAlpha zBeta baseline_rate mde : ℚ) : ℤ :=
  let treatment_rate := baseline_rate * (1 + mde)
  let pooled_rate := (baseline_rate + treatment_rate) / 2
  let effect := |treatment_rate - baseline_rate|
  let variance := 2 * pooled_rate * (1 - pooled_rate)
  if effect = 0 then 10000
  else Int.ceil (variance * ((zAlpha + zBeta) ^ 2) / (effect ^ 2))

/-- Embeds `ABTestFramework.assign_users_randomly` (src/ab_framework.py,
lines 83-90) applied to the already shuffled list: `shuffled` is the value of
`np.random.permutation(user_ids)` (a permutation of the input, fixed by the
seed), `split_idx = int(len(shuffled) * (1 - treatment_ratio))`; the argument
of `int` is nonnegative for a ratio in `[0,1]`, so the truncation is
`Int.floor` followed by `Int.toNat`. -/
def assign_users_randomly (shuffled : List ℕ) (treatment_frac : ℚ) :
    List ℕ × List ℕ :=
  let split_idx := (Int.floor ((shuffled.length : ℚ) * (1 - treatment_frac))).toNat
  (shuffled.take split_idx, shuffled.drop split_idx)

/-- Result record of `ABTestFramework.analyze_results`
(src/ab_framework.py, lines 29-43): the fields of the
`ExperimentResults` dataclass that lines 104-127 fill in. -/
structure ExperimentResults where
  control_mean : ℚ
  treatment_mean : ℚ
  control_std : ℚ
  treatment_std : ℚ
  control_n : ℕ
  treatment_n : ℕ
  absolute_effect : ℚ
  relative_effect : ℚ
  p_value : ℚ
  confidence_interval : ℚ × ℚ
  is_significant : Prop
  effect_size : ℚ

/-- Pandas `Series.mean` of a numeric column: sum over length. -/
def seriesMean (l : List ℚ) : ℚ := l.sum / l.length

/-- Pandas `Series.std` (sample standard deviation, `ddof=1`):
`sqrt(Σ (x - mean)² / (n - 1))`, with the square root supplied by the
numeric library (`sqrtFn`); pandas returns NaN for fewer than two
observations — the claims about it assume at least two. -/
def seriesStd (sqrtFn : ℚ → ℚ) (l : List ℚ) : ℚ :=
  sqrtFn ((l.map (fun x => (x - seriesMean l) ^ 2)).sum / (l.length - 1))

/-- Embeds `ABTestFramework.analyze_results` (src/ab_framework.py,
lines 92-130) after the merge/split step: `control_data` and
`treatment_data` are the two metric columns selected on lines 101-102.
`z` stands for `stats.norm.ppf(1 - significance_level/2)` and `pValue` for
the second component of `stats.ttest_ind(...)` (line 111), both computed by
scipy and only consumed here; `sqrtFn` is `np.sqrt`; `sl` is
`self.significance_level`. -/
def analyze_results (sqrtFn : ℚ → ℚ) (control_data treatment_data : List ℚ)
    (z pValue sl : ℚ) : ExperimentResults :=
  let control_mean := seriesMean control_data
  let treatment_mean := seriesMean treatment_data
  let control_std := seriesStd sqrtFn control_data
  let treatment_std := seriesStd sqrtFn treatment_data
  let control_n := control_data.length
  let treatment_n := treatment_data.length
  let absolute_effect := treatment_mean - control_mean
  let relative_effect := if control_mean ≠ 0 then absolute_effect / control_mean else 0
  let pooled_se := sqrtFn (control_std ^ 2 / control_n + treatment_std ^ 2 / treatment_n)
  let ci := (absolute_effect - z * pooled_se, absolute_effect + z * pooled_se)
  let pooled_std := sqrtFn (((control_n - 1 : ℚ) * control_std ^ 2
      + (treatment_n - 1 : ℚ) * treatment_std ^ 2) / (control_n + treatment_n - 2))
  let cohens_d := if pooled_std ≠ 0 then absolute_effect / pooled_std else 0
  { control_mean := control_mean
    treatment_mean := treatment_mean
    control_std := control_std
    treatment_std := treatment_std
    control_n := control_n
    treatment_n := treatment_n
    absolute_effect := absolute_effect
    relative_effect := relative_effect
    p_value := pValue
    confidence_interval := ci
    is_significant := pValue < sl
    effect_size := cohens_d }

/-! ### Funnel analysis (`src/funnel_analysis.py`) -/

/-- The `FunnelStage` dataclass (src/funnel_analysis.py, lines 28-34). -/
structure FunnelStage where
  name : String
  users : ℕ
  conversion_rate : ℚ
  drop_off_rate : ℚ
deriving DecidableEq

/-- The stage-construction loop shared by `analyze_playlist_completion`
(lines 113-127) and `analyze_user_activation` (lines 231-244) of
src/funnel_analysis.py: walk the `(name, users)` pairs carrying `prev_users`,
computing `conversion = users / total if total > 0 else 0` and
`drop_off = (prev_users - users) / prev_users if prev_users > 0 else 0`
(the numerator in `ℚ`, since Python's subtraction may be negative). -/
def buildStages (total : ℕ) : List (String × ℕ) → ℕ → List FunnelStage
  | [], _ => []
  | (n, u) :: rest, prev =>
    { name := n
      users := u
      conversion_rate := if 0 < total then (u : ℚ) / total else 0
      drop_off_rate := if 0 < prev then ((prev : ℚ) - u) / prev else 0 }
      :: buildStages total rest u

/-- One row of the per-session playlist-progress table built by
`FunnelAnalyzer._simulate_playlist_progress` (src/funnel_analysis.py,
lines 266-295) and consumed by the stage computation: `tracks_completed`
(a positive draw from the clipped geometric simulation) and
`completion_ratio` (rendered `completion_frac` here), the clipped quotient
`tracks_completed / playlist_length`.  The table is the simulation's output,
so it is taken as the funnel computation's input. -/
structure PlaylistProgress where
  user_id : ℕ
  tracks_completed : ℕ
  completion_frac : ℚ
deriving DecidableEq

/-- Pandas `(df['tracks_completed'] >= k).sum()` on the progress table. -/
def countTracksGe (p : List PlaylistProgress) (k : ℕ) : ℕ :=
  (p.filter (fun r => decide (k ≤ r.tracks_completed))).length

/-- Pandas `(df['completion_ratio'] >= q).sum()` on the progress table. -/
def countFracGe (p : List PlaylistProgress) (q : ℚ) : ℕ :=
  (p.filter (fun r => decide (q ≤ r.completion_frac))).length

/-- The seven `(name, users)` pairs of `analyze_playlist_completion`
(src/funnel_analysis.py, lines 101-111). -/
def playlistStagePairs (p : List PlaylistProgress) : List (String × ℕ) :=
  [("started", p.length),
   ("track_1_complete", countTracksGe p 1),
   ("track_3_complete", countTracksGe p 3),
   ("track_5_complete", countTracksGe p 5),
   ("50_percent_complete", countFracGe p (1 / 2)),
   ("75_percent_complete", countFracGe p (3 / 4)),
   ("100_percent_complete", countFracGe p 1)]

/-- The `self.funnel_stages` list that `analyze_playlist_completion`
(src/funnel_analysis.py, lines 113-127) builds from the progress table:
`prev_users` starts at `total_starts = len(user_playlist_progress)`. -/
def analyze_playlist_completion_stages (p : List PlaylistProgress) : List FunnelStage :=
  buildStages p.length (playlistStagePairs p) p.length

/-- A user row as `analyze_user_activation` reads it: `signup_day` is the
signup date at day granularity (src/funnel_analysis.py converts
`signup_date` to datetime on lines 184-185). -/
structure AUser where
  user_id : ℕ
  signup_day : ℤ
deriving DecidableEq

/-- A session row as `analyze_user_activation` reads it: `day` is the
timestamp at day granularity and `week` carries the value of
`timestamp.dt.isocalendar().week` (line 218) as data, the way the frame
stores the derived column. -/
structure ASession where
  user_id : ℕ
  day : ℤ
  week : ℤ
deriving DecidableEq

/-- The sessions of one user: a pandas `groupby('user_id')` group. -/
def sessionsOf (sessions : List ASession) (u : ℕ) : List ASession :=
  sessions.filter (fun s => decide (s.user_id = u))

/-- The distinct session user ids — the index of every
`sessions.groupby('user_id')` aggregate (pandas sorts this index; the order
never matters below, only membership and count). -/
def sessionUserIds (sessions : List ASession) : List ℕ :=
  (sessions.map (fun s => s.user_id)).dedup

/-- Pandas `sessions.groupby('user_id')['timestamp'].min()` looked up for
one user; `none` when the user has no session (a missing key after the
left merge on line 198 of src/funnel_analysis.py). -/
def firstSessionDay (sessions : List ASession) (u : ℕ) : Option ℤ :=
  ((sessionsOf sessions u).map (fun s => s.day)).min?

/-- The group body of lines 206-208 / 212-214 of src/funnel_analysis.py:
`len(x[x['timestamp'] <= x['timestamp'].min() + Timedelta(days=d)])` for
one user's session group. -/
def sessionsWithinDays (sessions : List ASession) (u : ℕ) (d : ℤ) : ℕ :=
  match firstSessionDay sessions u with
  | some m => ((sessionsOf sessions u).filter (fun s => decide (s.day ≤ m + d))).length
  | none => 0

/-- Line 203 of src/funnel_analysis.py: `(days_to_first <= 1).sum()` over
the users frame left-merged with each user's first session; users without
sessions have NaN `days_to_first`, and `NaN <= 1` is False. -/
def activatedDay1 (users : List AUser) (sessions : List ASession) : ℕ :=
  (users.filter (fun u =>
    match firstSessionDay sessions u.user_id with
    | some d => decide (d - u.signup_day ≤ 1)
    | none => false)).length

/-- The six `(name, users)` pairs of `analyze_user_activation`
(src/funnel_analysis.py, lines 189-229). -/
def activationStagePairs (users : List AUser) (sessions : List ASession) :
    List (String × ℕ) :=
  [("signed_up", users.length),
   ("first_session", (sessionUserIds sessions).length),
   ("activated_day_1", activatedDay1 users sessions),
   ("active_week_1",
     ((sessionUserIds sessions).filter
       (fun u => decide (2 ≤ sessionsWithinDays sessions u 7))).length),
   ("retained_week_2",
     ((sessionUserIds sessions).filter
       (fun u => decide (3 ≤ sessionsWithinDays sessions u 14))).length),
   ("weekly_active",
     ((sessionUserIds sessions).filter
       (fun u => decide (4 ≤ ((sessionsOf sessions u).map (fun s => s.week)).dedup.length))).length)]

/-- The `self.funnel_stages` list that `analyze_user_activation`
(src/funnel_analysis.py, lines 231-244) builds: `prev_users` starts at
`total_users = len(users)`. -/
def analyze_user_activation_stages (users : List AUser) (sessions : List ASession) :
    List FunnelStage :=
  buildStages users.length (activationStagePairs users sessions) users.length

/-- The loop body of `FunnelAnalyzer._find_biggest_drop_off`
(src/funnel_analysis.py, lines 302-310): scan carrying `max_drop`
(initially 0) and `max_stage` (initially `"unknown"`), replacing them when
`stage.drop_off_rate > max_drop` strictly. -/
def biggestDropLoop : List FunnelStage → ℚ → String → String
  | [], _, best => best
  | s :: rest, maxDropAcc, best =>
    if maxDropAcc < s.drop_off_rate then biggestDropLoop rest s.drop_off_rate s.name
    else biggestDropLoop rest maxDropAcc best

/-- Embeds `FunnelAnalyzer._find_biggest_drop_off` (src/funnel_analysis.py,
lines 297-310): `"unknown"` for an empty stage list, otherwise the scan over
`self.funnel_stages[1:]`. -/
def find_biggest_drop_off (stages : List FunnelStage) : String :=
  match stages with
  | [] => "unknown"
  | _ :: tail => biggestDropLoop tail 0 "unknown"

/-- The maximum `drop_off_rate` over a stage list, floored at the scan's
initial accumulator 0. -/
def maxDrop (l : List FunnelStage) : ℚ :=
  l.foldr (fun s m => max s.drop_off_rate m) 0

/-- Python substring membership `pat in s`, on character lists. -/
def strContainsAux (pat : List Char) : List Char → Bool
  | [] => pat.isEmpty
  | c :: rest => pat.isPrefixOf (c :: rest) || strContainsAux pat rest

/-- Python substring membership `pat in s` for strings. -/
def strContains (s pat : String) : Bool := strContainsAux pat.data s.data

/-- The messages `FunnelAnalyzer.get_recommendations`
(src/funnel_analysis.py, lines 363-402) can append, as tagged values: the
claims concern which messages appear, not their `f`-string formatting, so
each distinct message text becomes one constructor carrying the values
interpolated into it. -/
inductive Recommendation where
  | runFirst : Recommendation
  | highDropOff (rate : ℚ) (stage : String) : Recommendation
  | track35 (rate : ℚ) : Recommendation
  | healthy : Recommendation
deriving DecidableEq

/-- The per-stage flag loop of `get_recommendations`
(src/funnel_analysis.py, lines 375-380): a "High drop-off" message for each
stage after the first with `drop_off_rate > 0.20`, in stage order. -/
def stageFlags (stages : List FunnelStage) : List Recommendation :=
  (stages.tail.filter (fun s => decide ((1 / 5 : ℚ) < s.drop_off_rate))).map
    (fun s => Recommendation.highDropOff s.drop_off_rate s.name)

/-- The playlist-specific block of `get_recommendations`
(src/funnel_analysis.py, lines 382-397): when some stage name contains
`track_3` or `track_5`, the first `track_3` stage and the first `track_5`
stage are looked up, and if both exist and
`(track_3.users - track_5.users) / track_3.users > 0.15` a
"Significant drop-off between tracks 3-5" message is appended.  (In `ℚ`
the division by a zero `track_3.users` yields 0; Python would raise
`ZeroDivisionError` there, a case the theorems below avoid.) -/
def track35Flag (stages : List FunnelStage) : List Recommendation :=
  if stages.any (fun s => strContains s.name "track_3" || strContains s.name "track_5") then
    match stages.find? (fun s => strContains s.name "track_3"),
          stages.find? (fun s => strContains s.name "track_5") with
    | some t3, some t5 =>
      if (3 / 20 : ℚ) < ((t3.users : ℚ) - t5.users) / t3.users then
        [Recommendation.track35 (((t3.users : ℚ) - t5.users) / t3.users)]
      else []
    | _, _ => []
  else []

/-- Embeds `FunnelAnalyzer.get_recommendations` (src/funnel_analysis.py,
lines 363-402): the usage-error message when no funnel has been computed
(`funnel_data` empty), otherwise the stage flags, then the tracks-3-5
message, and the single "healthy" message exactly when nothing else was
appended. -/
def get_recommendations (stages : List FunnelStage) : List Recommendation :=
  if stages.length = 0 then [Recommendation.runFirst]
  else
    let recs := stageFlags stages ++ track35Flag stages
    if recs = [] then [Recommendation.healthy] else recs

/-! ### Feature engineering (`src/feature_engineering.py`) -/

/-- The run-length loop of `_create_listening_streak_features`
(src/feature_engineering.py, lines 136-145): iterate over the remaining
sorted distinct dates (day numbers, so `(dates[i] - dates[i-1]).days` is
the integer difference), extending the current streak when consecutive
dates differ by exactly one day and closing it otherwise; the final streak
is appended after the loop.  `acc` is the `streaks` list being built and
`cur` is `current_streak`. -/
def streaksLoop (prev : ℤ) (l : List ℤ) (cur : ℕ) (acc : List ℕ) : List ℕ :=
  match l with
  | [] => acc ++ [cur]
  | d :: rest =>
    if d - prev = 1 then streaksLoop d rest (cur + 1) acc
    else streaksLoop d rest 1 (acc ++ [cur])

/-- The `streaks` list `_create_listening_streak_features` computes for one
user's sorted distinct active dates (empty only in the guarded
`len(dates) == 0` branch, lines 128-134). -/
def streakRuns (dates : List ℤ) : List ℕ :=
  match dates with
  | [] => []
  | d :: rest => streaksLoop d rest 1 []

/-- The numeric fields of one user's streak feature row
(src/feature_engineering.py, lines 129-133 and 149-157); `active_days_ratio`
is rendered `active_days_frac`. -/
structure StreakFeatures where
  current_streak : ℕ
  max_streak : ℕ
  avg_streak : ℚ
  streak_count : ℕ
  active_days : ℕ
  active_days_frac : ℚ
deriving DecidableEq

/-- The per-user body of `_create_listening_streak_features`
(src/feature_engineering.py, lines 124-157) on the user's sorted distinct
active dates: the all-zero row when there are no dates, otherwise
`current_streak = streaks[-1] if streaks else 0`,
`max_streak = max(streaks) if streaks else 0` (Python `max` over the
nonempty list is the fold of `Nat.max` from 0), `avg_streak = np.mean`,
`streak_count = len(streaks)`, `active_days = len(dates)`,
`date_range = (max(dates) - min(dates)).days + 1`. -/
def streakFeaturesOfDates (dates : List ℤ) : StreakFeatures :=
  match dates with
  | [] => ⟨0, 0, 0, 0, 0, 0⟩
  | d :: rest =>
    let dd := d :: rest
    let streaks := streakRuns dd
    let dateRange : ℤ := (dd.max?.getD d) - (dd.min?.getD d) + 1
    { current_streak := streaks.getLastD 0
      max_streak := streaks.foldl Nat.max 0
      avg_streak :=
        if streaks.length ≠ 0 then ((streaks.map (fun n => (n : ℚ))).sum / streaks.length) else 0
      streak_count := streaks.length
      active_days := dd.length
      active_days_frac := if 0 < dateRange then (dd.length : ℚ) / dateRange else 0 }

/-- The specification's notion of the run-length decomposition (spec §4.1:
a "streak" is a maximal run of dates each exactly 1 day after the
previous), written as a direct structural recursion to compare with the
loop translation `streakRuns`. -/
def specRuns : List ℤ → List ℕ
  | [] => []
  | [_] => [1]
  | a :: b :: rest =>
    match specRuns (b :: rest) with
    | [] => [1]
    | r :: rs => if b - a = 1 then (r + 1) :: rs else 1 :: r :: rs

/-- The four time-of-day labels of the `pd.cut` on lines 260-263 of
src/feature_engineering.py. -/
inductive TimeBucket where
  | night : TimeBucket
  | morning : TimeBucket
  | afternoon : TimeBucket
  | evening : TimeBucket
deriving DecidableEq

/-- Embeds the session time bucketing of `_create_temporal_features`
(src/feature_engineering.py, lines 260-263):
`pd.cut(sessions['hour'], bins=[-1, 6, 12, 18, 24], labels=['night',
'morning', 'afternoon', 'evening'])` with pandas' default `right=True`
assigns hour `h` to the left-open right-closed bin — night `(-1, 6]`,
morning `(6, 12]`, afternoon `(12, 18]`, evening `(18, 24]` — and values
outside every bin to NaN (`none`). -/
def time_bucket (h : ℤ) : Option TimeBucket :=
  if -1 < h ∧ h ≤ 6 then some TimeBucket.night
  else if 6 < h ∧ h ≤ 12 then some TimeBucket.morning
  else if 12 < h ∧ h ≤ 18 then some TimeBucket.afternoon
  else if 18 < h ∧ h ≤ 24 then some TimeBucket.evening
  else none

/-- A `timestamp` column entry of the sessions frame: `raw v` for a
not-yet-parsed value (the column's dtype is then not `datetime64`) and
`dt v` for a parsed datetime; `v` identifies the instant, which parsing
preserves. -/
inductive Tstamp where
  | raw (v : ℤ) : Tstamp
  | dt (v : ℤ) : Tstamp
deriving DecidableEq

/-- Whether a timestamp entry is already a parsed datetime. -/
def Tstamp.isDt : Tstamp → Bool
  | .raw _ => false
  | .dt _ => true

/-- `pd.to_datetime` on one entry: parse a raw value, keep a datetime. -/
def Tstamp.toDatetime : Tstamp → Tstamp
  | .raw v => .dt v
  | .dt v => .dt v

/-- A sessions row with the columns whose structure `create_all_features`
depends on (`user_id` drives every `groupby`, `track_id` the tracks merge,
`timestamp` the dtype check; the remaining numeric/categorical columns
only contribute values inside rows). -/
structure Session where
  session_id : ℕ
  user_id : ℕ
  track_id : ℕ
  timestamp : Tstamp
deriving DecidableEq

/-- A users row with the columns `create_all_features` selects on line 98
(`user_id` is the merge key; the rest become encoded value columns). -/
structure User where
  user_id : ℕ
  tier : String
  country : String
  age_group : String
deriving DecidableEq

/-- A tracks row as merged on lines 71-77: `track_id` is the join key and
`genre` the group key of the genre features; the audio value columns do not
affect row structure and are omitted. -/
structure Track where
  track_id : ℕ
  genre : String
deriving DecidableEq

/-- `pd.api.types.is_datetime64_any_dtype(sessions['timestamp'])`
(src/feature_engineering.py, line 67): the column has datetime dtype when
every entry is a parsed datetime. -/
def timestampIsDatetime (sessions : List Session) : Bool :=
  sessions.all (fun s => s.timestamp.isDt)

/-- Line 68 of src/feature_engineering.py:
`sessions['timestamp'] = pd.to_datetime(sessions['timestamp'])` — the
assignment writes into the caller's frame (no copy was taken first). -/
def convertTimestamps (sessions : List Session) : List Session :=
  sessions.map (fun s => { s with timestamp := s.timestamp.toDatetime })

/-- The left merge of sessions with the tracks columns on `track_id`
(src/feature_engineering.py, lines 71-77): with unique `track_id` keys in
`tracks`, each session row is preserved and paired with its at-most-one
match (`none` models the NaN track columns of an unmatched row). -/
def sessionsWithTracks (sessions : List Session) (tracks : List Track) :
    List (Session × Option Track) :=
  sessions.map (fun s => (s, tracks.find? (fun t => decide (t.track_id = s.track_id))))

/-- The `user_id` index of `_create_listening_streak_features`
(src/feature_engineering.py, line 121): one row per distinct `user_id` of
`sessions` (pandas sorts this index; only membership and count matter to
the claims, so first-occurrence order stands in for sorted order).  The
per-user values are embedded separately as `streakFeaturesOfDates`. -/
def streakFeatureKeys (sessions : List Session) : List ℕ :=
  (sessions.map (fun s => s.user_id)).dedup

/-- The `user_id` index of `_create_genre_diversity_features`
(src/feature_engineering.py, line 165): `groupby(['user_id', 'genre'])`
drops rows whose `genre` is NaN (sessions whose `track_id` had no match),
so the index is the distinct users having at least one matched session. -/
def genreFeatureKeys (swt : List (Session × Option Track)) : List ℕ :=
  ((swt.filter (fun r => r.2.isSome)).map (fun r => r.1.user_id)).dedup

/-- The `user_id` index of `_create_playlist_behavior_features`
(src/feature_engineering.py, lines 201-217): the loop runs over
`total_sessions.index`, the distinct users of `sessions`. -/
def playlistFeatureKeys (sessions : List Session) : List ℕ :=
  (sessions.map (fun s => s.user_id)).dedup

/-- The `user_id` index of `_create_session_features`
(src/feature_engineering.py, line 225): `groupby('user_id')` over the
track-merged sessions. -/
def sessionFeatureKeys (swt : List (Session × Option Track)) : List ℕ :=
  (swt.map (fun r => r.1.user_id)).dedup

/-- The `user_id` index of `_create_temporal_features`
(src/feature_engineering.py, lines 265-289): every session's hour falls in
a bucket, so the `groupby(['user_id', 'time_bucket'])` index level 0 is the
distinct users of `sessions`. -/
def temporalFeatureKeys (sessions : List Session) : List ℕ :=
  (sessions.map (fun s => s.user_id)).dedup

/-- The `user_id` index of `_create_audio_preference_features`
(src/feature_engineering.py, line 299): `groupby('user_id')` over the
track-merged sessions (NaN audio values aggregate to NaN but keep the
row). -/
def audioFeatureKeys (swt : List (Session × Option Track)) : List ℕ :=
  (swt.map (fun r => r.1.user_id)).dedup

/-- The `user_id` index of `_create_engagement_features`
(src/feature_engineering.py, line 323): `groupby('user_id')` over
`sessions`. -/
def engagementFeatureKeys (sessions : List Session) : List ℕ :=
  (sessions.map (fun s => s.user_id)).dedup

/-- Pandas outer merge on the unique key `user_id`
(src/feature_engineering.py, lines 89-94): the key set of the result is
the union of the two key sets (pandas returns it sorted; order is
irrelevant to the claims). -/
def outerMergeKeys (left right : List ℕ) : List ℕ :=
  left ++ right.filter (fun u => decide (u ∉ left))

/-- The values `create_all_features` leaves behind: the `user_id` index of
the returned feature frame, and the final state of the three frames the
caller passed in. -/
structure CreateAllFeaturesResult where
  featureUserIds : List ℕ
  sessions : List Session
  users : List User
  tracks : List Track
deriving DecidableEq

/-- Embeds `FeatureEngineer.create_all_features`
(src/feature_engineering.py, lines 47-113) at the granularity the claims
need: the timestamp conversion assigned into the caller's `sessions` frame
when its dtype is not datetime (lines 66-68), and the `user_id` index of
the output — the seven per-user frames outer-merged on `user_id`
(lines 89-94), then the users columns left-merged onto that index
(lines 97-101, keeping the left keys), then categorical encoding and
numeric `fillna` (lines 103-108), which add and fill columns but never add
or drop rows.  `users` and `tracks` are only read, never assigned into. -/
def create_all_features (sessions : List Session) (users : List User)
    (tracks : List Track) : CreateAllFeaturesResult :=
  let sessions' :=
    if timestampIsDatetime sessions then sessions else convertTimestamps sessions
  let swt := sessionsWithTracks sessions' tracks
  let merged :=
    outerMergeKeys (outerMergeKeys (outerMergeKeys (outerMergeKeys (outerMergeKeys
      (outerMergeKeys (streakFeatureKeys sessions') (genreFeatureKeys swt))
      (playlistFeatureKeys sessions')) (sessionFeatureKeys swt))
      (temporalFeatureKeys sessions')) (audioFeatureKeys swt))
      (engagementFeatureKeys sessions')
  { featureUserIds := merged
    sessions := sessions'
    users := users
    tracks := tracks }

/-- Claim C9 auxiliary: the absolute effect computed on line 63 of
src/ab_framework.py equals `|baseline_rate * mde|`, exactly, in `ℚ`. -/
theorem calculate_sample_size_effect_eq (b m : ℚ) :
    |b * (1 + m) - b| = |b * m| := by
  ring_nf

/-- C9: whenever the absolute effect `baseline_rate * mde` is exactly zero,
`calculate_sample_size` returns exactly 10000 instead of dividing by zero. -/
theorem calculate_sample_size_zero_effect (zAlpha zBeta baseline_rate mde : ℚ)
    (h : baseline_rate * mde = 0) :
    calculate_sample_size zAlpha zBeta baseline_rate mde = 10000 := by
  unfold calculate_sample_size
  have he : |baseline_rate * (1 + mde) - baseline_rate| = 0 := by
    rw [calculate_sample_size_effect_eq, h, abs_zero]
  simp only [he]
  simp

/-- Witness for C9: `calculate_sample_size` at `baseline_rate = 3/10`,
`mde = 0` (and the scipy z-values for the default configuration replaced by
arbitrary rationals) returns 10000. -/
theorem calculate_sample_size_zero_effect_witness :
    (3 / 10 : ℚ) * 0 = 0 ∧ calculate_sample_size 2 1 (3 / 10) 0 = 10000 :=
  ⟨by norm_num, calculate_sample_size_zero_effect 2 1 (3 / 10) 0 (by norm_num)⟩

/-- C10: `assign_users_randomly` splits any seeded shuffle of a duplicate-free
user list into two disjoint lists whose members are exactly the input users,
with control size exactly `⌊n * (1 - treatment_ratio)⌋` and treatment size
`n` minus that. -/
theorem assign_users_randomly_partition (user_ids shuffled : List ℕ)
    (treatment_frac : ℚ) (hnd : user_ids.Nodup) (hperm : shuffled.Perm user_ids)
    (h0 : 0 ≤ treatment_frac) (h1 : treatment_frac ≤ 1) :
    (assign_users_randomly shuffled treatment_frac).1.Disjoint
        (assign_users_randomly shuffled treatment_frac).2 ∧
    (∀ x, (x ∈ (assign_users_randomly shuffled treatment_frac).1 ∨
           x ∈ (assign_users_randomly shuffled treatment_frac).2) ↔ x ∈ user_ids) ∧
    ((assign_users_randomly shuffled treatment_frac).1.length : ℤ)
        = Int.floor ((user_ids.length : ℚ) * (1 - treatment_frac)) ∧
    (assign_users_randomly shuffled treatment_frac).2.length
        = user_ids.length - (assign_users_randomly shuffled treatment_frac).1.length := by
  have hlen : shuffled.length = user_ids.length := hperm.length_eq
  have hnd' : shuffled.Nodup := hperm.nodup_iff.mpr hnd
  have hx0 : (0 : ℚ) ≤ (shuffled.length : ℚ) * (1 - treatment_frac) :=
    mul_nonneg (by positivity) (by linarith)
  have hxn : (shuffled.length : ℚ) * (1 - treatment_frac) ≤ (shuffled.length : ℚ) := by
    nlinarith [Nat.cast_nonneg (α := ℚ) shuffled.length]
  have hfl0 : (0 : ℤ) ≤ Int.floor ((shuffled.length : ℚ) * (1 - treatment_frac)) :=
    Int.floor_nonneg.mpr hx0
  have hfln : Int.floor ((shuffled.length : ℚ) * (1 - treatment_frac))
      ≤ (shuffled.length : ℤ) := by
    calc Int.floor ((shuffled.length : ℚ) * (1 - treatment_frac))
        ≤ Int.floor ((shuffled.length : ℚ)) := Int.floor_le_floor hxn
      _ = (shuffled.length : ℤ) := Int.floor_natCast _
  have hsplit : (Int.floor ((shuffled.length : ℚ) * (1 - treatment_frac))).toNat
      ≤ shuffled.length := by omega
  simp only [assign_users_randomly]
  refine ⟨?_, ?_, ?_, ?_⟩
  · exact List.disjoint_take_drop hnd' le_rfl
  · intro a
    rw [← List.mem_append, List.take_append_drop]
    exact hperm.mem_iff
  · rw [List.length_take, Nat.min_eq_left hsplit, ← hlen]
    exact Int.toNat_of_nonneg hfl0
  · rw [List.length_drop, List.length_take, Nat.min_eq_left hsplit, hlen]

/-- Witness for C10: the split of the shuffle `[2,0,1]` of `[0,1,2]` at
treatment ratio 1/3. -/
theorem assign_users_randomly_partition_witness :
    ([0, 1, 2] : List ℕ).Nodup ∧ ([2, 0, 1] : List ℕ).Perm [0, 1, 2] ∧
    (0 : ℚ) ≤ 1 / 3 ∧ (1 / 3 : ℚ) ≤ 1 ∧
    ((assign_users_randomly [2, 0, 1] (1 / 3)).1.Disjoint
        (assign_users_randomly [2, 0, 1] (1 / 3)).2 ∧
      (∀ x, (x ∈ (assign_users_randomly [2, 0, 1] (1 / 3)).1 ∨
             x ∈ (assign_users_randomly [2, 0, 1] (1 / 3)).2) ↔ x ∈ ([0, 1, 2] : List ℕ)) ∧
      ((assign_users_randomly [2, 0, 1] (1 / 3)).1.length : ℤ)
          = Int.floor ((([0, 1, 2] : List ℕ).length : ℚ) * (1 - 1 / 3)) ∧
      (assign_users_randomly [2, 0, 1] (1 / 3)).2.length
          = ([0, 1, 2] : List ℕ).length - (assign_users_randomly [2, 0, 1] (1 / 3)).1.length) :=
  ⟨by decide, by decide, by norm_num, by norm_num,
    assign_users_randomly_partition [0, 1, 2] [2, 0, 1] (1 / 3)
      (by decide) (by decide) (by norm_num) (by norm_num)⟩

/-- C5: for groups with at least two observations each (so that both sample
standard deviations are defined) and a square root that maps nonnegatives to
nonnegatives with `z = norm.ppf(1 - sl/2) ≥ 0`, the confidence interval
returned by `analyze_results` contains the absolute effect. -/
theorem analyze_results_ci_contains_effect (sqrtFn : ℚ → ℚ)
    (control_data treatment_data : List ℚ) (z pValue sl : ℚ)
    (hc : 2 ≤ control_data.length) (ht : 2 ≤ treatment_data.length)
    (hs : ∀ q : ℚ, 0 ≤ q → 0 ≤ sqrtFn q) (hz : 0 ≤ z) :
    (analyze_results sqrtFn control_data treatment_data z pValue sl).confidence_interval.1
        ≤ (analyze_results sqrtFn control_data treatment_data z pValue sl).absolute_effect ∧
    (analyze_results sqrtFn control_data treatment_data z pValue sl).absolute_effect
        ≤ (analyze_results sqrtFn control_data treatment_data z pValue sl).confidence_interval.2 := by
  have harg : (0 : ℚ) ≤ (seriesStd sqrtFn control_data) ^ 2 / control_data.length
      + (seriesStd sqrtFn treatment_data) ^ 2 / treatment_data.length := by
    have h1 : (0 : ℚ) ≤ (seriesStd sqrtFn control_data) ^ 2 / control_data.length :=
      div_nonneg (sq_nonneg _) (by positivity)
    have h2 : (0 : ℚ) ≤ (seriesStd sqrtFn treatment_data) ^ 2 / treatment_data.length :=
      div_nonneg (sq_nonneg _) (by positivity)
    linarith
  have hse : 0 ≤ sqrtFn ((seriesStd sqrtFn control_data) ^ 2 / control_data.length
      + (seriesStd sqrtFn treatment_data) ^ 2 / treatment_data.length) := hs _ harg
  have hzse : 0 ≤ z * sqrtFn ((seriesStd sqrtFn control_data) ^ 2 / control_data.length
      + (seriesStd sqrtFn treatment_data) ^ 2 / treatment_data.length) := mul_nonneg hz hse
  unfold analyze_results
  simp only
  constructor
  · linarith
  · linarith

/-- Witness for C5: the confidence interval around the effect of
`[0, 2]` (control) versus `[1, 3]` (treatment) at `z = 2`, with the
identity standing in for `np.sqrt` (it maps nonnegatives to
nonnegatives, which is all the theorem requires of it). -/
theorem analyze_results_ci_contains_effect_witness :
    2 ≤ ([(0 : ℚ), 2]).length ∧ 2 ≤ ([(1 : ℚ), 3]).length ∧
    (∀ q : ℚ, 0 ≤ q → 0 ≤ id q) ∧ (0 : ℚ) ≤ 2 ∧
    ((analyze_results id [(0 : ℚ), 2] [(1 : ℚ), 3] 2 (1 / 2) (1 / 20)).confidence_interval.1
        ≤ (analyze_results id [(0 : ℚ), 2] [(1 : ℚ), 3] 2 (1 / 2) (1 / 20)).absolute_effect ∧
      (analyze_results id [(0 : ℚ), 2] [(1 : ℚ), 3] 2 (1 / 2) (1 / 20)).absolute_effect
        ≤ (analyze_results id [(0 : ℚ), 2] [(1 : ℚ), 3] 2 (1 / 2) (1 / 20)).confidence_interval.2) :=
  ⟨by norm_num, by norm_num, fun q hq => hq, by norm_num,
    analyze_results_ci_contains_effect id [(0 : ℚ), 2] [(1 : ℚ), 3] 2 (1 / 2) (1 / 20)
      (by norm_num) (by norm_num) (fun q hq => hq) (by norm_num)⟩

/-- Helper: counting with a stronger predicate never yields more rows. -/
theorem length_filter_mono {α : Type} (l : List α) (p q : α → Bool)
    (h : ∀ a, p a = true → q a = true) :
    (l.filter p).length ≤ (l.filter q).length := by
  induction l with
  | nil => simp
  | cons a t ih =>
    by_cases hp : p a = true
    · rw [List.filter_cons_of_pos hp, List.filter_cons_of_pos (h a hp)]
      simpa using ih
    · rw [List.filter_cons_of_neg hp]
      by_cases hq : q a = true
      · rw [List.filter_cons_of_pos hq]
        exact ih.trans (Nat.le_succ _)
      · rw [List.filter_cons_of_neg hq]
        exact ih

/-- Counterexample for C2: the playlist-completion funnel on the reachable
progress table with one session that completed 1 track of a 2-track
playlist has user counts 1,1,0,0,1,0,0 — the count rises from stage 3
(`track_5_complete`, 0 users) to stage 4 (`50_percent_complete`, 1 user);
likewise the activation funnel on one user signed up at day 0 whose two
sessions are on days 30 and 31 has counts 1,1,0,1,0,0, rising from stage 2
(`activated_day_1`) to stage 3 (`active_week_1`).  Stage sets are not
nested across the two threshold families, so the sequences are not
monotonically non-increasing. -/
theorem funnel_user_counts_not_monotone_cex :
    ((analyze_playlist_completion_stages [⟨0, 1, 1 / 2⟩]).map FunnelStage.users
      = [1, 1, 0, 0, 1, 0, 0]) ∧
    (((analyze_playlist_completion_stages [⟨0, 1, 1 / 2⟩]).map FunnelStage.users).getD 3 0
      < ((analyze_playlist_completion_stages [⟨0, 1, 1 / 2⟩]).map FunnelStage.users).getD 4 0) ∧
    ((analyze_user_activation_stages [⟨1, 0⟩] [⟨1, 30, 1⟩, ⟨1, 31, 1⟩]).map FunnelStage.users
      = [1, 1, 0, 1, 0, 0]) ∧
    (((analyze_user_activation_stages [⟨1, 0⟩] [⟨1, 30, 1⟩, ⟨1, 31, 1⟩]).map FunnelStage.users).getD 2 0
      < ((analyze_user_activation_stages [⟨1, 0⟩] [⟨1, 30, 1⟩, ⟨1, 31, 1⟩]).map FunnelStage.users).getD 3 0) := by
  refine ⟨?_, ?_, ?_, ?_⟩ <;>
    norm_num [analyze_playlist_completion_stages, playlistStagePairs, buildStages,
      countTracksGe, countFracGe, analyze_user_activation_stages, activationStagePairs,
      activatedDay1, sessionUserIds, sessionsOf, firstSessionDay, sessionsWithinDays,
      List.filter, List.dedup, List.min?, List.foldl]

/-- C2 (amended): in the playlist-completion funnel the user counts are the
seven threshold counts in stage order, they are non-increasing within the
track-count stages (0-3) and within the completion-ratio stages (4-6), and
the ratio stages never exceed the started count; monotonicity across the
two families (stage 3 to stage 4) does not hold in general. -/
theorem playlist_funnel_counts_piecewise_monotone (p : List PlaylistProgress) :
    ((analyze_playlist_completion_stages p).map FunnelStage.users
      = [p.length, countTracksGe p 1, countTracksGe p 3, countTracksGe p 5,
         countFracGe p (1 / 2), countFracGe p (3 / 4), countFracGe p 1]) ∧
    countTracksGe p 1 ≤ p.length ∧
    countTracksGe p 3 ≤ countTracksGe p 1 ∧
    countTracksGe p 5 ≤ countTracksGe p 3 ∧
    countFracGe p (1 / 2) ≤ p.length ∧
    countFracGe p (3 / 4) ≤ countFracGe p (1 / 2) ∧
    countFracGe p 1 ≤ countFracGe p (3 / 4) := by
  refine ⟨rfl, List.length_filter_le _ _, ?_, ?_, List.length_filter_le _ _, ?_, ?_⟩
  · apply length_filter_mono
    intro a ha
    simp only [decide_eq_true_eq] at *
    omega
  · apply length_filter_mono
    intro a ha
    simp only [decide_eq_true_eq] at *
    omega
  · apply length_filter_mono
    intro a ha
    simp only [decide_eq_true_eq] at *
    linarith
  · apply length_filter_mono
    intro a ha
    simp only [decide_eq_true_eq] at *
    linarith

/-- Helper: the biggest-drop scan returns its accumulator when no rate
beats it. -/
theorem biggestDropLoop_of_all_le (l : List FunnelStage) (m : ℚ) (b : String)
    (h : ∀ s ∈ l, s.drop_off_rate ≤ m) : biggestDropLoop l m b = b := by
  induction l with
  | nil => rfl
  | cons a rest ih =>
    rw [biggestDropLoop, if_neg (not_lt.mpr (h a (List.mem_cons_self a rest)))]
    exact ih fun t ht => h t (List.mem_cons_of_mem a ht)

/-- Helper: every stage's rate is bounded by `maxDrop`. -/
theorem le_maxDrop_of_mem {s : FunnelStage} {l : List FunnelStage} (h : s ∈ l) :
    s.drop_off_rate ≤ maxDrop l := by
  induction l with
  | nil => cases h
  | cons a rest ih =>
    rcases List.mem_cons.mp h with h' | h'
    · rw [h']
      exact le_max_left _ _
    · exact (ih h').trans (le_max_right _ _)

/-- Helper: `maxDrop` is at least the scan's initial accumulator 0. -/
theorem maxDrop_nonneg (l : List FunnelStage) : 0 ≤ maxDrop l := by
  induction l with
  | nil => exact le_refl 0
  | cons a rest ih => exact ih.trans (le_max_right _ _)

/-- Helper: a strictly positive `maxDrop` is attained, so the first stage
attaining it exists. -/
theorem find?_maxDrop_eq_some (l : List FunnelStage) (h : 0 < maxDrop l) :
    ∃ t, l.find? (fun u => decide (maxDrop l ≤ u.drop_off_rate)) = some t := by
  induction l with
  | nil => exact absurd h (by simp [maxDrop])
  | cons a rest ih =>
    by_cases hp : maxDrop (a :: rest) ≤ a.drop_off_rate
    · exact ⟨a, List.find?_cons_of_pos _ (decide_eq_true hp)⟩
    · push_neg at hp
      have hM : maxDrop (a :: rest) = maxDrop rest := by
        have : maxDrop (a :: rest) = max a.drop_off_rate (maxDrop rest) := rfl
        rcases max_choice a.drop_off_rate (maxDrop rest) with hc | hc
        · rw [this, hc] at hp
          exact absurd (this.symm ▸ hc ▸ le_refl _) (not_le.mpr (this ▸ hc ▸ hp))
        · rw [this, hc]
      rw [hM] at h ⊢
      obtain ⟨t, ht⟩ := ih h
      refine ⟨t, ?_⟩
      rw [List.find?_cons_of_neg _ ?_, ht]
      simp only [decide_eq_true_eq]
      rw [hM] at hp
      exact not_le.mpr hp

/-- Helper: with a nonnegative accumulator strictly below the remaining
maximum, the biggest-drop scan returns the name of the first stage
attaining that maximum. -/
theorem biggestDropLoop_eq_first_max (l : List FunnelStage) (m : ℚ) (b : String)
    (hm0 : 0 ≤ m) (hlt : m < maxDrop l) :
    biggestDropLoop l m b
      = ((l.find? (fun u => decide (maxDrop l ≤ u.drop_off_rate))).map FunnelStage.name).getD b := by
  induction l generalizing m b with
  | nil =>
    exact absurd hlt (not_lt.mpr (by simpa [maxDrop] using hm0))
  | cons a rest ih =>
    have hmax : maxDrop (a :: rest) = max a.drop_off_rate (maxDrop rest) := rfl
    by_cases hbranch : m < a.drop_off_rate
    · rw [biggestDropLoop, if_pos hbranch]
      by_cases hrest : maxDrop rest ≤ a.drop_off_rate
      · have hM : maxDrop (a :: rest) = a.drop_off_rate := by
          rw [hmax]
          exact max_eq_left hrest
        have hall : ∀ s ∈ rest, s.drop_off_rate ≤ a.drop_off_rate :=
          fun s hs => (le_maxDrop_of_mem hs).trans hrest
        rw [biggestDropLoop_of_all_le rest _ _ hall,
          List.find?_cons_of_pos
            (p := fun u : FunnelStage => decide (maxDrop (a :: rest) ≤ u.drop_off_rate)) _
            (decide_eq_true (hM ▸ le_refl _))]
        rfl
      · push_neg at hrest
        have hM : maxDrop (a :: rest) = maxDrop rest := by
          rw [hmax]
          exact max_eq_right hrest.le
        have hpos : 0 < maxDrop rest := hm0.trans_lt (hbranch.trans hrest)
        obtain ⟨t, ht⟩ := find?_maxDrop_eq_some rest hpos
        rw [hM,
          List.find?_cons_of_neg
            (p := fun u : FunnelStage => decide (maxDrop rest ≤ u.drop_off_rate)) _
            (by simpa using not_le.mpr hrest),
          ih a.drop_off_rate a.name (hm0.trans hbranch.le) hrest, ht]
        simp
    · push_neg at hbranch
      rw [biggestDropLoop, if_neg (not_lt.mpr hbranch)]
      have hrest : m < maxDrop rest := by
        by_contra h'
        push_neg at h'
        exact absurd hlt (not_lt.mpr (hmax ▸ max_le hbranch h'))
      have hM : maxDrop (a :: rest) = maxDrop rest := by
        rw [hmax]
        exact max_eq_right (hbranch.trans hrest.le)
      rw [hM]
      rw [List.find?_cons_of_neg _ (by simpa using not_le.mpr (lt_of_le_of_lt hbranch hrest))]
      exact ih m b hm0 hrest

/-- Counterexample for C6: on a funnel whose stages past the first all have
`drop_off_rate = 0` (the largest drop-off rate, first attained at stage 1),
`_find_biggest_drop_off` returns `"unknown"`, which is not the name of any
stage, because its scan only replaces the initial `"unknown"` on a strict
improvement over the initial `max_drop = 0`. -/
theorem find_biggest_drop_off_all_zero_cex :
    find_biggest_drop_off
        [⟨"started", 10, 1, 0⟩, ⟨"track_1_complete", 10, 1, 0⟩] = "unknown" ∧
    ∀ s ∈ [FunnelStage.mk "started" 10 1 0, FunnelStage.mk "track_1_complete" 10 1 0],
      find_biggest_drop_off
          [⟨"started", 10, 1, 0⟩, ⟨"track_1_complete", 10, 1, 0⟩] ≠ s.name := by
  decide

/-- C6 (amended): whenever some stage after the first has a strictly
positive `drop_off_rate`, `_find_biggest_drop_off` returns the name of the
first stage (stage 0 excluded) attaining the maximum drop-off rate — the
`find?` witness — and that stage's rate is the maximum; when no rate is
positive it returns `"unknown"` instead (see the counterexample). -/
theorem find_biggest_drop_off_first_max (s0 : FunnelStage) (tail : List FunnelStage)
    (h : ∃ s ∈ tail, 0 < s.drop_off_rate) :
    ∃ t, tail.find? (fun u => decide (maxDrop tail ≤ u.drop_off_rate)) = some t ∧
      find_biggest_drop_off (s0 :: tail) = t.name ∧
      t.drop_off_rate = maxDrop tail := by
  obtain ⟨s, hs, hpos⟩ := h
  have hm : 0 < maxDrop tail := hpos.trans_le (le_maxDrop_of_mem hs)
  obtain ⟨t, ht⟩ := find?_maxDrop_eq_some tail hm
  refine ⟨t, ht, ?_, ?_⟩
  · show biggestDropLoop tail 0 "unknown" = t.name
    rw [biggestDropLoop_eq_first_max tail 0 "unknown" le_rfl hm, ht]
    rfl
  · have h1 : maxDrop tail ≤ t.drop_off_rate := by simpa using List.find?_some ht
    exact le_antisymm (le_maxDrop_of_mem (List.mem_of_find?_eq_some ht)) h1

/-- Witness for C6: a two-stage funnel whose second stage has drop-off rate
one half. -/
theorem find_biggest_drop_off_first_max_witness :
    (∃ s ∈ [FunnelStage.mk "mid" 5 1 (1 / 2)], 0 < s.drop_off_rate) ∧
    (∃ t, [FunnelStage.mk "mid" 5 1 (1 / 2)].find?
          (fun u => decide (maxDrop [FunnelStage.mk "mid" 5 1 (1 / 2)] ≤ u.drop_off_rate))
          = some t ∧
      find_biggest_drop_off
          [FunnelStage.mk "started" 10 1 0, FunnelStage.mk "mid" 5 1 (1 / 2)] = t.name ∧
      t.drop_off_rate = maxDrop [FunnelStage.mk "mid" 5 1 (1 / 2)]) :=
  ⟨⟨FunnelStage.mk "mid" 5 1 (1 / 2), List.mem_singleton.mpr rfl, by norm_num⟩,
    find_biggest_drop_off_first_max (FunnelStage.mk "started" 10 1 0) _
      ⟨FunnelStage.mk "mid" 5 1 (1 / 2), List.mem_singleton.mpr rfl, by norm_num⟩⟩

/-- Helper: everything in `stageFlags` is a high-drop-off flag for a stage
past the first whose rate exceeds `0.20`. -/
theorem stageFlags_shape {stages : List FunnelStage} {x : Recommendation}
    (hx : x ∈ stageFlags stages) :
    ∃ s ∈ stages.tail, (1 / 5 : ℚ) < s.drop_off_rate ∧
      x = Recommendation.highDropOff s.drop_off_rate s.name := by
  unfold stageFlags at hx
  obtain ⟨s, hs, rfl⟩ := List.mem_map.mp hx
  have hmem := List.mem_filter.mp hs
  exact ⟨s, hmem.1, by simpa using hmem.2, rfl⟩

/-- Helper: everything in `track35Flag` is a tracks-3-5 message. -/
theorem track35Flag_shape {stages : List FunnelStage} {x : Recommendation}
    (hx : x ∈ track35Flag stages) : ∃ q, x = Recommendation.track35 q := by
  unfold track35Flag at hx
  split at hx
  · split at hx
    · split at hx
      · rw [List.mem_singleton] at hx
        exact ⟨_, hx⟩
      · cases hx
    · cases hx
  · cases hx

/-- Helper: no stage flag is emitted exactly when every stage past the
first has `drop_off_rate ≤ 0.20`. -/
theorem stageFlags_eq_nil_iff {stages : List FunnelStage} :
    stageFlags stages = [] ↔ ∀ s ∈ stages.tail, s.drop_off_rate ≤ 1 / 5 := by
  unfold stageFlags
  rw [List.map_eq_nil_iff, List.filter_eq_nil_iff]
  simp [not_lt]

/-- C7 (amended): for every computed funnel, the recommendation list
contains a high-drop-off flag for rate `r` and stage name `n` exactly when
some stage past the first has that rate and name with rate `> 0.20`; and it
is exactly the single "healthy" message iff no stage past the first has
rate `> 0.20` and additionally the tracks-3-5 block (both a `track_3` and a
`track_5` stage found with relative user drop `> 0.15`) emits nothing. -/
theorem get_recommendations_characterization (stages : List FunnelStage)
    (hne : stages ≠ []) :
    (∀ r n, Recommendation.highDropOff r n ∈ get_recommendations stages ↔
        ∃ s ∈ stages.tail, (1 / 5 : ℚ) < s.drop_off_rate ∧
          s.drop_off_rate = r ∧ s.name = n) ∧
    (get_recommendations stages = [Recommendation.healthy] ↔
        ((∀ s ∈ stages.tail, s.drop_off_rate ≤ 1 / 5) ∧ track35Flag stages = [])) := by
  have hlen : ¬ stages.length = 0 := fun h => hne (List.length_eq_zero.mp h)
  unfold get_recommendations
  rw [if_neg hlen]
  by_cases hrecs : stageFlags stages ++ track35Flag stages = []
  · rw [if_pos hrecs]
    obtain ⟨hsf, ht35⟩ := List.append_eq_nil.mp hrecs
    refine ⟨fun r n => ?_, ?_⟩
    · constructor
      · intro hmem
        rw [List.mem_singleton] at hmem
        cases hmem
      · rintro ⟨s, hs, hgt, rfl, rfl⟩
        exact absurd (stageFlags_eq_nil_iff.mp hsf s hs) (not_le.mpr hgt)
    · exact ⟨fun _ => ⟨stageFlags_eq_nil_iff.mp hsf, ht35⟩, fun _ => rfl⟩
  · rw [if_neg hrecs]
    refine ⟨fun r n => ?_, ?_⟩
    · constructor
      · intro hmem
        rcases List.mem_append.mp hmem with hm | hm
        · obtain ⟨s, hs, hgt, heq⟩ := stageFlags_shape hm
          obtain ⟨h1, h2⟩ : r = s.drop_off_rate ∧ n = s.name := by
            simpa using heq
          exact ⟨s, hs, hgt, h1.symm, h2.symm⟩
        · obtain ⟨q, hq⟩ := track35Flag_shape hm
          cases hq
      · rintro ⟨s, hs, hgt, rfl, rfl⟩
        apply List.mem_append_left
        unfold stageFlags
        exact List.mem_map.mpr
          ⟨s, List.mem_filter.mpr ⟨hs, by simpa using hgt⟩, rfl⟩
    · constructor
      · intro heq
        have hh : Recommendation.healthy ∈ stageFlags stages ++ track35Flag stages := by
          rw [heq]
          exact List.mem_singleton.mpr rfl
        rcases List.mem_append.mp hh with hm | hm
        · obtain ⟨s, _, _, habs⟩ := stageFlags_shape hm
          cases habs
        · obtain ⟨q, habs⟩ := track35Flag_shape hm
          cases habs
      · rintro ⟨hall, ht35⟩
        refine absurd ?_ hrecs
        rw [stageFlags_eq_nil_iff.mpr hall, ht35]
        rfl

/-- Witness for C7: the characterization applied to the one-stage funnel
with no drop-off. -/
theorem get_recommendations_characterization_witness :
    ([FunnelStage.mk "started" 10 1 0] ≠ ([] : List FunnelStage)) ∧
    ((∀ r n, Recommendation.highDropOff r n
          ∈ get_recommendations [FunnelStage.mk "started" 10 1 0] ↔
        ∃ s ∈ [FunnelStage.mk "started" 10 1 0].tail, (1 / 5 : ℚ) < s.drop_off_rate ∧
          s.drop_off_rate = r ∧ s.name = n) ∧
      (get_recommendations [FunnelStage.mk "started" 10 1 0] = [Recommendation.healthy] ↔
        ((∀ s ∈ [FunnelStage.mk "started" 10 1 0].tail, s.drop_off_rate ≤ 1 / 5) ∧
          track35Flag [FunnelStage.mk "started" 10 1 0] = []))) :=
  ⟨List.cons_ne_nil _ _,
    get_recommendations_characterization [FunnelStage.mk "started" 10 1 0]
      (List.cons_ne_nil _ _)⟩

/-- Counterexample for C7: the playlist funnel computed from the reachable
progress table with five full listens of a 5-track playlist and one
3-of-5 listen has every drop-off rate at most `0.20`, yet the
recommendation list is the single tracks-3-5 message (the drop from
`track_3_complete` (6 users) to `track_5_complete` (5 users) is `1/6 >
0.15`), not the "healthy" message. -/
theorem get_recommendations_not_healthy_cex :
    (∀ s ∈ analyze_playlist_completion_stages
        [⟨0, 5, 1⟩, ⟨0, 5, 1⟩, ⟨0, 5, 1⟩, ⟨0, 5, 1⟩, ⟨0, 5, 1⟩, ⟨0, 3, 3 / 5⟩],
      s.drop_off_rate ≤ 1 / 5) ∧
    get_recommendations (analyze_playlist_completion_stages
        [⟨0, 5, 1⟩, ⟨0, 5, 1⟩, ⟨0, 5, 1⟩, ⟨0, 5, 1⟩, ⟨0, 5, 1⟩, ⟨0, 3, 3 / 5⟩])
      = [Recommendation.track35 (1 / 6)] ∧
    get_recommendations (analyze_playlist_completion_stages
        [⟨0, 5, 1⟩, ⟨0, 5, 1⟩, ⟨0, 5, 1⟩, ⟨0, 5, 1⟩, ⟨0, 5, 1⟩, ⟨0, 3, 3 / 5⟩])
      ≠ [Recommendation.healthy] := by
  have hc1 : strContains "started" "track_3" = false := by decide
  have hc2 : strContains "track_1_complete" "track_3" = false := by decide
  have hc3 : strContains "track_3_complete" "track_3" = true := by decide
  have hc4 : strContains "started" "track_5" = false := by decide
  have hc5 : strContains "track_1_complete" "track_5" = false := by decide
  have hc6 : strContains "track_3_complete" "track_5" = false := by decide
  have hc7 : strContains "track_5_complete" "track_5" = true := by decide
  refine ⟨?_, ?_, ?_⟩ <;>
    norm_num [analyze_playlist_completion_stages, playlistStagePairs, buildStages,
      countTracksGe, countFracGe, get_recommendations, stageFlags, track35Flag,
      List.filter, List.find?, List.any, hc1, hc2, hc3, hc4, hc5, hc6, hc7]
  exact fun h => Recommendation.noConfusion h

/-- Helper: the spec-side run decomposition of a nonempty date list is
nonempty. -/
theorem specRuns_ne_nil (d : ℤ) (rest : List ℤ) : specRuns (d :: rest) ≠ [] := by
  cases rest with
  | nil => simp [specRuns]
  | cons b r =>
    cases hh : specRuns (b :: r) with
    | nil => simp [specRuns, hh]
    | cons x xs =>
      simp only [specRuns, hh]
      split_ifs <;> simp

/-- Helper: the run lengths of the spec-side decomposition sum to the
number of dates. -/
theorem specRuns_sum : ∀ l : List ℤ, (specRuns l).sum = l.length
  | [] => by simp [specRuns]
  | [_] => by simp [specRuns]
  | a :: b :: rest => by
    have ih := specRuns_sum (b :: rest)
    cases hh : specRuns (b :: rest) with
    | nil => exact absurd hh (specRuns_ne_nil b rest)
    | cons r rs =>
      rw [hh] at ih
      simp only [specRuns, hh]
      split_ifs with hd
      · simp only [List.sum_cons] at ih ⊢
        simp at ih ⊢
        omega
      · simp only [List.sum_cons] at ih ⊢
        simp at ih ⊢
        omega

/-- Helper: the imperative run-length loop agrees with the spec-side
decomposition, the open streak `cur` being added into the head run. -/
theorem streaksLoop_eq : ∀ (l : List ℤ) (prev : ℤ) (k : ℕ) (acc : List ℕ),
    streaksLoop prev l (k + 1) acc
      = acc ++ (match specRuns (prev :: l) with
                | [] => [k + 1]
                | r :: rs => (k + r) :: rs)
  | [], prev, k, acc => by simp [streaksLoop, specRuns]
  | d :: rest, prev, k, acc => by
    have ih1 := streaksLoop_eq rest d (k + 1) acc
    have ih2 := streaksLoop_eq rest d 0 (acc ++ [k + 1])
    cases hh : specRuns (d :: rest) with
    | nil => exact absurd hh (specRuns_ne_nil d rest)
    | cons r rs =>
      rw [hh] at ih1 ih2
      norm_num at ih2
      by_cases hd : d - prev = 1
      · rw [streaksLoop, if_pos hd, ih1]
        simp only [specRuns, hh, if_pos hd]
        have harith : k + 1 + r = k + (r + 1) := by omega
        rw [harith]
      · rw [streaksLoop, if_neg hd, ih2]
        simp only [specRuns, hh, if_neg hd]

/-- Helper: the loop translation of the streak computation equals the
spec-side run-length decomposition. -/
theorem streakRuns_eq_specRuns (dates : List ℤ) : streakRuns dates = specRuns dates := by
  cases dates with
  | nil => rfl
  | cons d rest =>
    have h := streaksLoop_eq rest d 0 []
    norm_num at h
    cases hh : specRuns (d :: rest) with
    | nil => exact absurd hh (specRuns_ne_nil d rest)
    | cons r rs =>
      rw [hh] at h
      simp only [List.nil_append] at h
      simpa [streakRuns, hh] using h

/-- Helper: a fold of `Nat.max` dominates its initial value. -/
theorem le_foldl_max : ∀ (l : List ℕ) (init : ℕ), init ≤ l.foldl Nat.max init
  | [], _ => le_refl _
  | a :: t, init => (Nat.le_max_left init a).trans (le_foldl_max t (Nat.max init a))

/-- Helper: a fold of `Nat.max` dominates every member. -/
theorem mem_le_foldl_max : ∀ (l : List ℕ) (init a : ℕ), a ∈ l → a ≤ l.foldl Nat.max init
  | [], _, a, h => absurd h (List.not_mem_nil a)
  | b :: t, init, a, h => by
    rcases List.mem_cons.mp h with h' | h'
    · subst h'
      exact (Nat.le_max_right init a).trans (le_foldl_max t _)
    · exact mem_le_foldl_max t (Nat.max init b) a h'

/-- Helper: the last element (with default) of a nonempty list is a
member. -/
theorem getLastD_mem (l : List ℕ) (h : l ≠ []) : l.getLastD 0 ∈ l := by
  rw [List.getLastD_eq_getLast?, List.getLast?_eq_getLast l h]
  exact List.getLast_mem h

/-- C8: for a user with at least one session, the `streaks` list computed
by the streak loop is exactly the run-length decomposition of the sorted
distinct active dates, its lengths sum to `active_days`, `current_streak`
is the length of the last (most recent) run, and `max_streak` dominates
`current_streak`. -/
theorem streak_features_sound (dates : List ℤ) (h : dates ≠ []) :
    streakRuns dates = specRuns dates ∧
    (streakRuns dates).sum = (streakFeaturesOfDates dates).active_days ∧
    (streakFeaturesOfDates dates).current_streak = (specRuns dates).getLastD 0 ∧
    (streakFeaturesOfDates dates).current_streak ≤ (streakFeaturesOfDates dates).max_streak := by
  cases dates with
  | nil => exact absurd rfl h
  | cons d rest =>
    refine ⟨streakRuns_eq_specRuns _, ?_, ?_, ?_⟩
    · rw [streakRuns_eq_specRuns, specRuns_sum]
      simp [streakFeaturesOfDates]
    · simp [streakFeaturesOfDates, streakRuns_eq_specRuns]
    · have hne : streakRuns (d :: rest) ≠ [] := by
        rw [streakRuns_eq_specRuns]
        exact specRuns_ne_nil d rest
      simp only [streakFeaturesOfDates]
      exact mem_le_foldl_max _ 0 _ (getLastD_mem _ hne)

/-- Witness for C8: the three active dates 0, 1, 3 (runs of lengths 2
and 1). -/
theorem streak_features_sound_witness :
    ([0, 1, 3] : List ℤ) ≠ [] ∧
    (streakRuns [0, 1, 3] = specRuns [0, 1, 3] ∧
      (streakRuns [0, 1, 3]).sum = (streakFeaturesOfDates [0, 1, 3]).active_days ∧
      (streakFeaturesOfDates [0, 1, 3]).current_streak = (specRuns [0, 1, 3]).getLastD 0 ∧
      (streakFeaturesOfDates [0, 1, 3]).current_streak
        ≤ (streakFeaturesOfDates [0, 1, 3]).max_streak) :=
  ⟨by decide, streak_features_sound [0, 1, 3] (by decide)⟩

/-- Counterexample for C3: `pd.cut` with its default right-closed bins puts
hour 6 in the night bucket, not the morning bucket the claim asserts
(and hour 12 in morning, hour 18 in afternoon). -/
theorem time_bucket_hour6_cex :
    time_bucket 6 = some TimeBucket.night ∧
    time_bucket 6 ≠ some TimeBucket.morning ∧
    time_bucket 12 = some TimeBucket.morning ∧
    time_bucket 18 = some TimeBucket.afternoon := by
  decide

/-- C3 (amended): for every valid hour `0 ≤ h ≤ 23` the buckets are the
left-open right-closed intervals night `(-1,6]`, morning `(6,12]`,
afternoon `(12,18]`, evening `(18,24]`; in particular hour 6 is counted in
night, hour 12 in morning, and hour 18 in afternoon. -/
theorem time_bucket_intervals (h : ℤ) (h0 : 0 ≤ h) (h23 : h ≤ 23) :
    (time_bucket h = some TimeBucket.night ↔ h ≤ 6) ∧
    (time_bucket h = some TimeBucket.morning ↔ 6 < h ∧ h ≤ 12) ∧
    (time_bucket h = some TimeBucket.afternoon ↔ 12 < h ∧ h ≤ 18) ∧
    (time_bucket h = some TimeBucket.evening ↔ 18 < h) := by
  unfold time_bucket
  split_ifs <;> simp_all <;> omega

/-- Witness for C3: the amended bucket characterization at hour 5. -/
theorem time_bucket_intervals_witness :
    (0 : ℤ) ≤ 5 ∧ (5 : ℤ) ≤ 23 ∧
    ((time_bucket 5 = some TimeBucket.night ↔ (5 : ℤ) ≤ 6) ∧
      (time_bucket 5 = some TimeBucket.morning ↔ 6 < (5 : ℤ) ∧ (5 : ℤ) ≤ 12) ∧
      (time_bucket 5 = some TimeBucket.afternoon ↔ 12 < (5 : ℤ) ∧ (5 : ℤ) ≤ 18) ∧
      (time_bucket 5 = some TimeBucket.evening ↔ 18 < (5 : ℤ))) :=
  ⟨by decide, by decide, time_bucket_intervals 5 (by decide) (by decide)⟩

/-- C1 (failing input): with two users in the users table and a single
session belonging to user 1, `create_all_features` returns one row — its
index is the distinct session users, and user 2, who has zero sessions,
is absent, because the per-user frames are all session-derived and the
users table is only left-merged onto their outer-merged index. -/
theorem create_all_features_row_count_failing_input :
    (create_all_features [⟨0, 1, 0, Tstamp.dt 0⟩]
        [⟨1, "free", "US", "18-24"⟩, ⟨2, "premium", "UK", "25-34"⟩] []).featureUserIds
      = [1] ∧
    ([⟨1, "free", "US", "18-24"⟩, ⟨2, "premium", "UK", "25-34"⟩] : List User).length = 2 ∧
    (2 : ℕ) ∉ (create_all_features [⟨0, 1, 0, Tstamp.dt 0⟩]
        [⟨1, "free", "US", "18-24"⟩, ⟨2, "premium", "UK", "25-34"⟩] []).featureUserIds := by
  decide

/-- Counterexample for C4: a sessions frame whose timestamp column is not
yet datetime is converted in place by `create_all_features` — after the
call the caller's frame differs from what was passed in. -/
theorem create_all_features_mutates_sessions_cex :
    (create_all_features [⟨0, 1, 0, Tstamp.raw 5⟩] [] []).sessions
      = [⟨0, 1, 0, Tstamp.dt 5⟩] ∧
    (create_all_features [⟨0, 1, 0, Tstamp.raw 5⟩] [] []).sessions
      ≠ [⟨0, 1, 0, Tstamp.raw 5⟩] := by
  decide

/-- C4 (amended): when the sessions timestamp column already has datetime
dtype, `create_all_features` leaves the caller's sessions frame unchanged;
the users and tracks frames are never modified. -/
theorem create_all_features_frame_effect (sessions : List Session)
    (users : List User) (tracks : List Track)
    (h : timestampIsDatetime sessions = true) :
    (create_all_features sessions users tracks).sessions = sessions ∧
    (create_all_features sessions users tracks).users = users ∧
    (create_all_features sessions users tracks).tracks = tracks := by
  unfold create_all_features
  simp [h]

/-- Witness for C4: a one-session frame with a parsed timestamp passes
through unchanged. -/
theorem create_all_features_frame_effect_witness :
    timestampIsDatetime [⟨0, 1, 0, Tstamp.dt 0⟩] = true ∧
    ((create_all_features [⟨0, 1, 0, Tstamp.dt 0⟩] [] []).sessions
        = [⟨0, 1, 0, Tstamp.dt 0⟩] ∧
      (create_all_features [⟨0, 1, 0, Tstamp.dt 0⟩] [] []).users = [] ∧
      (create_all_features [⟨0, 1, 0, Tstamp.dt 0⟩] [] []).tracks = []) :=
  ⟨by decide, create_all_features_frame_effect [⟨0, 1, 0, Tstamp.dt 0⟩] [] [] (by decide)⟩
